import Mathlib

/-!
Shallow embedding of `robinhood_bot.py` (class `RobinHoodBot`).

The brokerage gateway (`robin_stocks.robinhood`, aliased `rh` in the source)
is an external collaborator; every gateway operation is passed in as an
explicit oracle function.  The bot's mutable field `self.open_orders` (a
Python dict from order id to the raw order dict) is modelled as an
association list with Python-dict insertion semantics (assignment to an
existing key updates in place, a new key is appended).  Raw gateway
response dicts are modelled by `OrderResp`, whose fields are the only dict
keys the source ever reads or writes (`id`, `symbol`, `state`,
`reject_reason`, `instrument`); each is `Option` because a raw dict may
lack a key.  Python numbers in requests are modelled as `Rat`; Python's
`int()` truncation toward zero is `pyInt`.  Python exceptions
(`ValueError`, `KeyError`) are modelled with `Except String`.
-/

set_option autoImplicit false

namespace RobinHoodBot

/-- A raw gateway order dict: the fields of the response dicts that
`robinhood_bot.py` reads or writes.  `none` models an absent key. -/
structure OrderResp where
  id : Option String
  symbol : Option String
  state : Option String
  reject_reason : Option String
  instrument : Option String
  deriving Repr, DecidableEq

/-- The `self.open_orders` dict: order id → raw order dict, in insertion
order. -/
abbrev OrderRegistry := List (String × OrderResp)

/-- Python dict assignment `d[k] = v`: overwrite every entry whose key is
`k` if one exists (a dict has at most one), otherwise append `(k, v)`. -/
def dictInsert (reg : OrderRegistry) (k : String) (v : OrderResp) : OrderRegistry :=
  if reg.any (fun p => p.1 == k) then
    reg.map (fun p => if p.1 == k then (k, v) else p)
  else
    reg ++ [(k, v)]

/-- Python dict lookup `d[k]` (as an `Option`): the first entry with key `k`. -/
def dictLookup (reg : OrderRegistry) (k : String) : Option OrderResp :=
  reg.lookup k

/-- Python `int(q)`: truncation toward zero.  For a canonical rational
`num/den` with `den > 0` this is T-division of the numerator by the
denominator. -/
def pyInt (q : Rat) : Int :=
  Int.tdiv q.num (q.den : Int)

/-- The eight placement operations of `rh.orders` that `buy_stock` /
`sell_stock` dispatch to, with the exact arguments the source transmits. -/
inductive GatewayCall where
  | buyFractionalByPrice (symbol : String) (dollar_amount : Rat)
  | buyFractionalByQuantity (symbol : String) (quantity : Rat)
  | buyLimit (symbol : String) (quantity : Int) (price : Rat)
  | buyMarket (symbol : String) (quantity : Int)
  | sellFractionalByPrice (symbol : String) (dollar_amount : Rat)
  | sellFractionalByQuantity (symbol : String) (quantity : Rat)
  | sellLimit (symbol : String) (quantity : Int) (price : Rat)
  | sellMarket (symbol : String) (quantity : Int)
  deriving Repr, DecidableEq

/-- Result of one `buy_stock` / `sell_stock` call: the Python return value
(or the `ValueError` raised), the resulting `self.open_orders`, the list of
gateway placement calls issued, and the `print` lines emitted. -/
structure SubmitResult where
  ret : Except String OrderResp
  open_orders : OrderRegistry
  gatewayCalls : List GatewayCall
  logs : List String
  deriving Repr

/-- Validation and dispatch shared by `buy_stock` and `sell_stock`: each
branch of the `if order_type == ...` chain first checks the required
fields, raising `ValueError` on an absent or negative value, and otherwise
names the placement call to issue.  `mk...` selects the buy- or sell-side
constructors. -/
def checkFractionalByPrice (symbol : String) (dollar_amount : Option Rat)
    (mk : String → Rat → GatewayCall) : Except String GatewayCall :=
  match dollar_amount with
  | none => .error "No dollar amount specified."
  | some da =>
    if da < 0 then .error "Negative dollar amount."
    else .ok (mk symbol da)

def checkFractionalByQuantity (symbol : String) (quantity : Option Rat)
    (mk : String → Rat → GatewayCall) : Except String GatewayCall :=
  match quantity with
  | none => .error "No quantity specified."
  | some qt =>
    if qt < 0 then .error "Negative quantity."
    else .ok (mk symbol qt)

def checkLimit (symbol : String) (price quantity : Option Rat)
    (mk : String → Int → Rat → GatewayCall) : Except String GatewayCall :=
  match price, quantity with
  | none, _ => .error "No price or quantity specified."
  | some _, none => .error "No price or quantity specified."
  | some pr, some qt =>
    if qt < 0 ∨ pr < 0 then .error "Negative quantity or price."
    else .ok (mk symbol (pyInt qt) pr)

def checkMarket (symbol : String) (quantity : Option Rat)
    (mk : String → Int → GatewayCall) : Except String GatewayCall :=
  match quantity with
  | none => .error "No quantity specified."
  | some qt =>
    if qt < 0 then .error "Negative quantity."
    else .ok (mk symbol (pyInt qt))

def validateAndDispatch (symbol order_type : String)
    (price quantity dollar_amount : Option Rat)
    (mkFractionalByPrice : String → Rat → GatewayCall)
    (mkFractionalByQuantity : String → Rat → GatewayCall)
    (mkLimit : String → Int → Rat → GatewayCall)
    (mkMarket : String → Int → GatewayCall)
    (unsupportedMsg : String) : Except String GatewayCall :=
  if order_type == "fractional_price" then
    checkFractionalByPrice symbol dollar_amount mkFractionalByPrice
  else if order_type == "fractional_quantity" then
    checkFractionalByQuantity symbol quantity mkFractionalByQuantity
  else if order_type == "limit" then
    checkLimit symbol price quantity mkLimit
  else if order_type == "market" then
    checkMarket symbol quantity mkMarket
  else
    .error unsupportedMsg

/-- The tail shared by both submit methods: set `order['symbol'] = symbol`
on the raw response, then insert it into `open_orders` under `order['id']`
when that key is present, else emit the `FAILED ORDER` line and leave the
registry untouched. -/
def recordOrder (reg : OrderRegistry) (resp : OrderResp) :
    OrderRegistry × List String :=
  match resp.id with
  | none => (reg, ["FAILED ORDER"])
  | some oid => (dictInsert reg oid resp, [])

/-- `RobinHoodBot.buy_stock`.  `gw` is the gateway oracle standing for the
`rh.orders.order_buy_*` calls. -/
def buy_stock (gw : GatewayCall → OrderResp) (reg : OrderRegistry)
    (symbol order_type : String)
    (price quantity dollar_amount : Option Rat) : SubmitResult :=
  match validateAndDispatch symbol order_type price quantity dollar_amount
      .buyFractionalByPrice .buyFractionalByQuantity .buyLimit .buyMarket
      "Unsupported buy order type" with
  | .error e => ⟨.error e, reg, [], []⟩
  | .ok call =>
    let buy_order := { gw call with symbol := some symbol }
    let (reg', failLog) := recordOrder reg buy_order
    ⟨.ok buy_order, reg', [call],
      ("BUY ORDER SUBMITTED " ++ symbol ++ " " ++ order_type) :: failLog⟩

/-- `RobinHoodBot.sell_stock`.  Identical validation; the `SELL ORDER
SUBMITTED` line is printed after the id check, matching the source. -/
def sell_stock (gw : GatewayCall → OrderResp) (reg : OrderRegistry)
    (symbol order_type : String)
    (price quantity dollar_amount : Option Rat) : SubmitResult :=
  match validateAndDispatch symbol order_type price quantity dollar_amount
      .sellFractionalByPrice .sellFractionalByQuantity .sellLimit .sellMarket
      "Unsupported buy order type" with
  | .error e => ⟨.error e, reg, [], []⟩
  | .ok call =>
    let sell_order := { gw call with symbol := some symbol }
    let (reg', failLog) := recordOrder reg sell_order
    ⟨.ok sell_order, reg', [call],
      failLog ++ [("SELL ORDER SUBMITTED " ++ symbol ++ " " ++ order_type)]⟩

/-- The fields of the dict returned by `rh.get_stock_order_info` that
`update_open_orders` reads. -/
structure OrderInfo where
  state : String
  reject_reason : String
  deriving Repr, DecidableEq

/-- The condition under which `update_open_orders` appends an order id to
`remove_orders`: the `filled`/`cancelled` branch or the `rejected` branch. -/
def isTerminalState (s : String) : Bool :=
  s == "filled" || s == "cancelled" || s == "rejected"

/-- `RobinHoodBot.update_open_orders`: scan all tracked order ids,
collect those whose gateway-reported state is terminal, then delete them
from `open_orders`.  The Python method body has no `return` statement, so
its return value is `None`, modelled by the second component `none`. -/
def update_open_orders (gwInfo : String → OrderInfo) (reg : OrderRegistry) :
    OrderRegistry × Option Nat :=
  let remove_orders :=
    (reg.map Prod.fst).filter (fun oid => isTerminalState (gwInfo oid).state)
  (reg.filter (fun p => !(remove_orders.contains p.1)), none)

/-- `RobinHoodBot.cancel_stock_order`: pass-through to
`rh.orders.cancel_stock_order`; `self.open_orders` is not touched.  The
pair returns the status together with the (unchanged) registry. -/
def cancel_stock_order (gwCancel : String → String) (reg : OrderRegistry)
    (orderID : String) : String × OrderRegistry :=
  (gwCancel orderID, reg)

/-- `RobinHoodBot.cancel_all_stock_orders`: pass-through to
`rh.orders.cancel_all_stock_orders`; `self.open_orders` is not touched. -/
def cancel_all_stock_orders (gwCancelAll : Unit → List String)
    (reg : OrderRegistry) : List String × OrderRegistry :=
  (gwCancelAll (), reg)

/-- The loop body of `RobinHoodBot.get_all_open_stock_orders`: for each raw
order, resolve its symbol via `rh.get_instrument_by_url(order['instrument'])`,
set `order['symbol']`, and store it under `order['id']`.  A missing
`instrument` or `id` key is a Python `KeyError`. -/
def loadOpenOrders (resolve : String → String) :
    List OrderResp → OrderRegistry → Except String OrderRegistry
  | [], order_dict => .ok order_dict
  | order :: rest, order_dict =>
    match order.instrument with
    | none => .error "KeyError: instrument"
    | some instr =>
      let sym := resolve instr
      let order' := { order with symbol := some sym }
      match order'.id with
      | none => .error "KeyError: id"
      | some oid => loadOpenOrders resolve rest (dictInsert order_dict oid order')

/-- `RobinHoodBot.get_all_open_stock_orders`: build the registry from the
gateway's list of currently open orders, starting from the empty dict. -/
def get_all_open_stock_orders (resolve : String → String)
    (orders : List OrderResp) : Except String OrderRegistry :=
  loadOpenOrders resolve orders []

/-- One value of the `rh.build_holdings()` mapping, as `get_portfolio`
sees it: an opaque bag of brokerage fields, plus the `created_at` key the
method may write (modelled separately; `none` = key absent). -/
structure Holding where
  fields : List (String × String)
  created_at : Option String
  deriving Repr, DecidableEq

/-- One element of `rh.get_open_stock_positions()`, with the two keys
`get_portfolio` reads. -/
structure Position where
  instrument : String
  created_at : String
  deriving Repr, DecidableEq

/-- `RobinHoodBot.get_portfolio`: for each open position, resolve its
symbol; if that symbol is a key of the holdings dict, set the holding's
`created_at` to the position's timestamp converted to US/Eastern
(`toEastern` models `pd.to_datetime(...).tz_convert` applied to the raw
string).  The holdings dict itself is returned. -/
def applyPosition (resolve toEastern : String → String)
    (h : List (String × Holding)) (stock : Position) : List (String × Holding) :=
  if h.any (fun p => p.1 == resolve stock.instrument) then
    h.map (fun p =>
      if p.1 == resolve stock.instrument then
        (p.1, { p.2 with created_at := some (toEastern stock.created_at) })
      else p)
  else h

def get_portfolio (resolve : String → String) (toEastern : String → String)
    (holdings : List (String × Holding)) (stock_data : List Position) :
    List (String × Holding) :=
  stock_data.foldl (applyPosition resolve toEastern) holdings

/-- The symbols the open positions resolve to, in order. -/
def positionSymbols (resolve : String → String) (stock_data : List Position) :
    List String :=
  stock_data.map (fun s => resolve s.instrument)

/-- The local wall-clock components of `dt.datetime.now().astimezone(tz)`
for `tz = US/Eastern`.  `market_open` calls `.time()` on it, which keeps
only the hour/minute/second/microsecond components. -/
structure EasternDateTime where
  year : Nat
  month : Nat
  day : Nat
  hour : Nat
  minute : Nat
  second : Nat
  microsecond : Nat
  deriving Repr, DecidableEq

/-- The `.time()` projection, encoded in microseconds since midnight.  For
the range-valid components `datetime.time` enforces (minute, second < 60,
microsecond < 10^6) this encoding is order-isomorphic to Python's
lexicographic `time` comparison. -/
def timeOfDay (t : EasternDateTime) : Nat :=
  ((t.hour * 60 + t.minute) * 60 + t.second) * 1000000 + t.microsecond

/-- `dt.time(9, 30, 0)` in the microsecond encoding. -/
def marketOpenTime : Nat := ((9 * 60 + 30) * 60) * 1000000

/-- `dt.time(16, 0, 0)` in the microsecond encoding. -/
def marketCloseTime : Nat := ((16 * 60) * 60) * 1000000

/-- `RobinHoodBot.market_open`: `open < time < close` with strict
comparisons, where `time` is the current US/Eastern wall-clock time of
day. -/
def market_open (now : EasternDateTime) : Bool :=
  let time := timeOfDay now
  decide (marketOpenTime < time) && decide (time < marketCloseTime)

end RobinHoodBot

namespace RobinHoodBot

/-! ### Helper lemmas about the registry operations -/

/-- Key consistency: every registry entry is stored under the value of its
own `id` field. -/
def RegistryKeyInv (reg : OrderRegistry) : Prop :=
  ∀ p ∈ reg, p.2.id = some p.1

theorem dictInsert_keyInv {reg : OrderRegistry} {k : String} {v : OrderResp}
    (hreg : RegistryKeyInv reg) (hv : v.id = some k) :
    RegistryKeyInv (dictInsert reg k v) := by
  intro p hp
  unfold dictInsert at hp
  split at hp
  · rcases List.mem_map.mp hp with ⟨q, hq, hfq⟩
    split at hfq
    · subst hfq; exact hv
    · subst hfq; exact hreg q hq
  · rcases List.mem_append.mp hp with hq | hq
    · exact hreg p hq
    · rcases List.mem_singleton.mp hq with rfl
      exact hv

theorem mem_update_open_orders (gwInfo : String → OrderInfo)
    (reg : OrderRegistry) (p : String × OrderResp) :
    p ∈ (update_open_orders gwInfo reg).1 ↔
      p ∈ reg ∧ ¬ isTerminalState (gwInfo p.1).state = true := by
  unfold update_open_orders
  simp only [List.mem_filter, Bool.not_eq_true']
  constructor
  · rintro ⟨hp, hnot⟩
    refine ⟨hp, fun hterm => ?_⟩
    have hmem : p.1 ∈ (reg.map Prod.fst).filter
        (fun oid => isTerminalState (gwInfo oid).state) :=
      List.mem_filter.mpr ⟨List.mem_map.mpr ⟨p, hp, rfl⟩, hterm⟩
    rw [← List.elem_iff] at hmem
    exact absurd (hmem.symm.trans hnot) (by decide)
  · rintro ⟨hp, hnot⟩
    refine ⟨hp, ?_⟩
    by_contra hcon
    rw [Bool.not_eq_false, List.contains, List.elem_iff, List.mem_filter] at hcon
    exact hnot hcon.2

end RobinHoodBot

namespace RobinHoodBot

/-- The tracked state of an order.  The source represents order state
implicitly: an order is tracked as `open` exactly while its id is a key of
`self.open_orders`, the registry of orders not yet known terminal;
reconciliation deletes an entry the moment a terminal state is observed. -/
def orderIsOpen (reg : OrderRegistry) (oid : String) : Bool :=
  (dictLookup reg oid).isSome

/-- C1: a `limit` buy of "SOFI", quantity 1, price 1, against a gateway
stub whose placement response carries the order identifier "abc123",
returns the order record, inserts it into the (initially empty) order
registry under key "abc123" in the open tracked state, and the returned
record's symbol field equals "SOFI". -/
theorem buy_limit_sofi_inserts_open_record :
    (buy_stock (fun _ => ⟨some "abc123", none, none, none, none⟩) [] "SOFI" "limit"
        (some 1) (some 1) none).ret =
      .ok ⟨some "abc123", some "SOFI", none, none, none⟩ ∧
    dictLookup (buy_stock (fun _ => ⟨some "abc123", none, none, none, none⟩) [] "SOFI" "limit"
        (some 1) (some 1) none).open_orders "abc123" =
      some ⟨some "abc123", some "SOFI", none, none, none⟩ ∧
    orderIsOpen (buy_stock (fun _ => ⟨some "abc123", none, none, none, none⟩) [] "SOFI" "limit"
        (some 1) (some 1) none).open_orders "abc123" = true ∧
    (OrderResp.symbol ⟨some "abc123", some "SOFI", none, none, none⟩) = some "SOFI" :=
  ⟨rfl, by decide, by decide, rfl⟩

/-- C6: `cancel_stock_order` and `cancel_all_stock_orders` are pure
pass-throughs to the gateway: neither changes the order registry in any
way — no entry is added, removed, or modified. -/
theorem cancel_leaves_registry_unchanged :
    ∀ (gwCancel : String → String) (gwCancelAll : Unit → List String)
      (reg : OrderRegistry) (orderID : String),
      (cancel_stock_order gwCancel reg orderID).2 = reg ∧
      (cancel_all_stock_orders gwCancelAll reg).2 = reg :=
  fun _ _ _ _ => ⟨rfl, rfl⟩

/-- C7: `market_open` is true exactly when the US/Eastern wall-clock time
of day lies strictly between 09:30:00 and 16:00:00; it depends only on the
time-of-day components (never on year/month/day, hence not on weekday or
holiday), and in particular is true at 12:00:00 and false at 08:00:00 and
17:00:00. -/
theorem market_open_iff_time_window :
    ∀ (now other : EasternDateTime),
      (market_open now = true ↔
        (marketOpenTime < timeOfDay now ∧ timeOfDay now < marketCloseTime)) ∧
      (now.hour = other.hour → now.minute = other.minute →
        now.second = other.second → now.microsecond = other.microsecond →
        market_open now = market_open other) ∧
      (now.hour = 12 → now.minute = 0 → now.second = 0 → now.microsecond = 0 →
        market_open now = true) ∧
      (now.hour = 8 → now.minute = 0 → now.second = 0 → now.microsecond = 0 →
        market_open now = false) ∧
      (now.hour = 17 → now.minute = 0 → now.second = 0 → now.microsecond = 0 →
        market_open now = false) := by
  intro now other
  refine ⟨?_, ?_, ?_, ?_, ?_⟩
  · simp [market_open]
  · intro h1 h2 h3 h4
    simp [market_open, timeOfDay, h1, h2, h3, h4]
  · intro h1 h2 h3 h4
    simp [market_open, timeOfDay, marketOpenTime, marketCloseTime, h1, h2, h3, h4]
  · intro h1 h2 h3 h4
    simp [market_open, timeOfDay, marketOpenTime, marketCloseTime, h1, h2, h3, h4]
  · intro h1 h2 h3 h4
    simp [market_open, timeOfDay, marketOpenTime, marketCloseTime, h1, h2, h3, h4]

/-- Witness for C7 at concrete instants: 2021-01-03 was a Sunday, so the
12:00:00 instance also exhibits the documented no-weekday-dependence
behaviour, and the last conjunct compares two different dates at the same
wall-clock time. -/
theorem market_open_iff_time_window_witness :
    market_open ⟨2021, 1, 3, 12, 0, 0, 0⟩ = true ∧
    market_open ⟨2021, 1, 3, 8, 0, 0, 0⟩ = false ∧
    market_open ⟨2021, 1, 3, 17, 0, 0, 0⟩ = false ∧
    market_open ⟨2021, 1, 3, 12, 0, 0, 0⟩ = market_open ⟨2022, 7, 4, 12, 0, 0, 0⟩ :=
  ⟨(market_open_iff_time_window ⟨2021, 1, 3, 12, 0, 0, 0⟩
      ⟨2021, 1, 3, 12, 0, 0, 0⟩).2.2.1 rfl rfl rfl rfl,
   (market_open_iff_time_window ⟨2021, 1, 3, 8, 0, 0, 0⟩
      ⟨2021, 1, 3, 8, 0, 0, 0⟩).2.2.2.1 rfl rfl rfl rfl,
   (market_open_iff_time_window ⟨2021, 1, 3, 17, 0, 0, 0⟩
      ⟨2021, 1, 3, 17, 0, 0, 0⟩).2.2.2.2 rfl rfl rfl rfl,
   (market_open_iff_time_window ⟨2021, 1, 3, 12, 0, 0, 0⟩
      ⟨2022, 7, 4, 12, 0, 0, 0⟩).2.1 rfl rfl rfl rfl⟩

end RobinHoodBot

namespace RobinHoodBot

theorem update_open_orders_fst (gwInfo : String → OrderInfo) (l : OrderRegistry) :
    (update_open_orders gwInfo l).1 =
      l.filter (fun p =>
        !(((l.map Prod.fst).filter
            (fun oid => isTerminalState (gwInfo oid).state)).contains p.1)) := rfl

theorem update_open_orders_idem (gwInfo : String → OrderInfo) (reg : OrderRegistry) :
    (update_open_orders gwInfo (update_open_orders gwInfo reg).1).1 =
      (update_open_orders gwInfo reg).1 := by
  rw [update_open_orders_fst gwInfo (update_open_orders gwInfo reg).1]
  apply List.filter_eq_self.mpr
  intro p hp
  have hmem := (mem_update_open_orders gwInfo reg p).mp hp
  rw [Bool.not_eq_true']
  by_contra hc
  rw [Bool.not_eq_false] at hc
  rw [List.contains, List.elem_iff, List.mem_filter] at hc
  exact hmem.2 hc.2

/-- A registry of three open orders, for the reconciliation scenario. -/
def regThree : OrderRegistry :=
  [("a", ⟨some "a", some "X", none, none, none⟩),
   ("b", ⟨some "b", some "Y", none, none, none⟩),
   ("c", ⟨some "c", some "Z", none, none, none⟩)]

/-- A gateway stub reporting every order as `filled`. -/
def gwAllFilled : String → OrderInfo := fun _ => ⟨"filled", ""⟩

/-- A gateway stub reporting every order as `queued` (non-terminal). -/
def gwQueued : String → OrderInfo := fun _ => ⟨"queued", ""⟩

/-- C3 counterexample: `update_open_orders` has no `return` statement, so
its Python return value is `None` (modelled by the second component): in
the 3-open-orders/all-filled scenario the first call does not return
count_removed = 3, and the immediate second call does not return
count_removed = 0. -/
theorem update_open_orders_returns_no_count :
    (update_open_orders gwAllFilled regThree).2 ≠ some 3 ∧
    (update_open_orders gwAllFilled (update_open_orders gwAllFilled regThree).1).2 ≠
      some 0 :=
  ⟨by decide, by decide⟩

/-- C3 amended: reconciliation returns no count (its return value is
`None`), but its removal behaviour is idempotent: with no gateway-state
change a second call leaves the registry exactly as the first left it; in
the concrete scenario of 3 open orders all reported `filled`, the first
call empties the registry — removing 3 entries, measured by registry
size — and the immediate second call removes 0. -/
theorem update_open_orders_idempotent_removals :
    (∀ (gwInfo : String → OrderInfo) (reg : OrderRegistry),
        (update_open_orders gwInfo reg).2 = none) ∧
    (∀ (gwInfo : String → OrderInfo) (reg : OrderRegistry),
        (update_open_orders gwInfo (update_open_orders gwInfo reg).1).1 =
          (update_open_orders gwInfo reg).1) ∧
    (update_open_orders gwAllFilled regThree).1 = [] ∧
    regThree.length - (update_open_orders gwAllFilled regThree).1.length = 3 ∧
    (update_open_orders gwAllFilled regThree).1.length -
      (update_open_orders gwAllFilled
        (update_open_orders gwAllFilled regThree).1).1.length = 0 :=
  ⟨fun _ _ => rfl, update_open_orders_idem, by decide, by decide, by decide⟩

/-- C4: reconciliation removes a tracked entry exactly when the
gateway-reported state is `filled`, `cancelled` or `rejected`; an entry
whose reported state is anything else survives unchanged (the very same
key/record pair remains in the registry). -/
theorem update_removes_iff_terminal :
    ∀ (gwInfo : String → OrderInfo) (reg : OrderRegistry) (p : String × OrderResp),
      p ∈ reg →
      (p ∉ (update_open_orders gwInfo reg).1 ↔
        ((gwInfo p.1).state = "filled" ∨ (gwInfo p.1).state = "cancelled" ∨
         (gwInfo p.1).state = "rejected")) := by
  intro gwInfo reg p hp
  have hT : isTerminalState (gwInfo p.1).state = true ↔
      ((gwInfo p.1).state = "filled" ∨ (gwInfo p.1).state = "cancelled" ∨
       (gwInfo p.1).state = "rejected") := by
    simp [isTerminalState, or_assoc]
  rw [← hT, mem_update_open_orders]
  constructor
  · intro hno
    by_contra hnt
    exact hno ⟨hp, hnt⟩
  · rintro ht ⟨_, hnt⟩
    exact hnt ht

/-- Witness for C4: an order reported `queued` is retained (its removal is
equivalent to the false disjunction), exercised on a concrete registry. -/
theorem update_removes_iff_terminal_witness :
    ("a", (⟨some "a", some "X", none, none, none⟩ : OrderResp)) ∈ regThree ∧
    (("a", (⟨some "a", some "X", none, none, none⟩ : OrderResp)) ∉
        (update_open_orders gwQueued regThree).1 ↔
      ("queued" = "filled" ∨ "queued" = "cancelled" ∨ "queued" = "rejected")) :=
  ⟨by decide,
   update_removes_iff_terminal gwQueued regThree
     ("a", ⟨some "a", some "X", none, none, none⟩) (by decide)⟩

end RobinHoodBot

namespace RobinHoodBot

/-- The §4.1 validation-table failure condition for the four supported
order shapes: a required field is absent, or a required numeric field
carries a negative value.  (The spec names the shapes
`fractional_by_price`/`fractional_by_quantity`; the source's literals are
`fractional_price`/`fractional_quantity`.) -/
def missingOrNegative (order_type : String)
    (price quantity dollar_amount : Option Rat) : Prop :=
  (order_type = "fractional_price" ∧
    (dollar_amount = none ∨ ∃ x, dollar_amount = some x ∧ x < 0)) ∨
  (order_type = "fractional_quantity" ∧
    (quantity = none ∨ ∃ x, quantity = some x ∧ x < 0)) ∨
  (order_type = "limit" ∧
    (price = none ∨ quantity = none ∨
      (∃ x, quantity = some x ∧ x < 0) ∨ (∃ x, price = some x ∧ x < 0))) ∨
  (order_type = "market" ∧
    (quantity = none ∨ ∃ x, quantity = some x ∧ x < 0))

theorem validateAndDispatch_invalid {order_type : String}
    {price quantity dollar_amount : Option Rat}
    (h : missingOrNegative order_type price quantity dollar_amount)
    (symbol : String) (mk1 mk2 : String → Rat → GatewayCall)
    (mk3 : String → Int → Rat → GatewayCall) (mk4 : String → Int → GatewayCall)
    (um : String) :
    ∃ msg, validateAndDispatch symbol order_type price quantity dollar_amount
      mk1 mk2 mk3 mk4 um = .error msg := by
  rcases h with ⟨rfl, hda⟩ | ⟨rfl, hq⟩ | ⟨rfl, hlim⟩ | ⟨rfl, hq⟩
  · rcases hda with rfl | ⟨x, rfl, hx⟩
    · exact ⟨_, rfl⟩
    · exact ⟨"Negative dollar amount.", by simp [validateAndDispatch, checkFractionalByPrice, checkFractionalByQuantity, checkLimit, checkMarket, hx]⟩
  · rcases hq with rfl | ⟨x, rfl, hx⟩
    · exact ⟨_, rfl⟩
    · exact ⟨"Negative quantity.", by simp [validateAndDispatch, checkFractionalByPrice, checkFractionalByQuantity, checkLimit, checkMarket, hx]⟩
  · rcases hlim with rfl | rfl | ⟨x, rfl, hx⟩ | ⟨x, rfl, hx⟩
    · exact ⟨_, rfl⟩
    · cases price with
      | none => exact ⟨_, rfl⟩
      | some pr => exact ⟨_, rfl⟩
    · cases price with
      | none => exact ⟨_, rfl⟩
      | some pr => exact ⟨"Negative quantity or price.", by simp [validateAndDispatch, checkFractionalByPrice, checkFractionalByQuantity, checkLimit, checkMarket, hx]⟩
    · cases quantity with
      | none => exact ⟨_, rfl⟩
      | some qt => exact ⟨"Negative quantity or price.", by simp [validateAndDispatch, checkFractionalByPrice, checkFractionalByQuantity, checkLimit, checkMarket, hx]⟩
  · rcases hq with rfl | ⟨x, rfl, hx⟩
    · exact ⟨_, rfl⟩
    · exact ⟨"Negative quantity.", by simp [validateAndDispatch, checkFractionalByPrice, checkFractionalByQuantity, checkLimit, checkMarket, hx]⟩

/-- C2: for every side and every order shape of the validation table, a
request that is missing a required field or carries a negative required
numeric value raises `ValueError` (the `InvalidRequest` failure), issues
no gateway call, and leaves the order registry unchanged. -/
theorem invalid_request_no_side_effect :
    ∀ (gw : GatewayCall → OrderResp) (reg : OrderRegistry)
      (symbol order_type : String) (price quantity dollar_amount : Option Rat),
      missingOrNegative order_type price quantity dollar_amount →
      (∃ msg, (buy_stock gw reg symbol order_type price quantity
          dollar_amount).ret = .error msg) ∧
      (buy_stock gw reg symbol order_type price quantity
          dollar_amount).open_orders = reg ∧
      (buy_stock gw reg symbol order_type price quantity
          dollar_amount).gatewayCalls = [] ∧
      (∃ msg, (sell_stock gw reg symbol order_type price quantity
          dollar_amount).ret = .error msg) ∧
      (sell_stock gw reg symbol order_type price quantity
          dollar_amount).open_orders = reg ∧
      (sell_stock gw reg symbol order_type price quantity
          dollar_amount).gatewayCalls = [] := by
  intro gw reg symbol ot p q da h
  obtain ⟨msgB, hB⟩ := validateAndDispatch_invalid h symbol .buyFractionalByPrice
    .buyFractionalByQuantity .buyLimit .buyMarket "Unsupported buy order type"
  obtain ⟨msgS, hS⟩ := validateAndDispatch_invalid h symbol .sellFractionalByPrice
    .sellFractionalByQuantity .sellLimit .sellMarket "Unsupported buy order type"
  refine ⟨⟨msgB, ?_⟩, ?_, ?_, ⟨msgS, ?_⟩, ?_, ?_⟩ <;>
    simp [buy_stock, sell_stock, hB, hS]

/-- Witness for C2: a `limit` request with no price is rejected before any
gateway call, on both sides, leaving an empty registry empty. -/
theorem invalid_request_no_side_effect_witness :
    (∃ msg, (buy_stock (fun _ => ⟨none, none, none, none, none⟩) [] "SOFI" "limit"
        none (some 1) none).ret = .error msg) ∧
    (buy_stock (fun _ => ⟨none, none, none, none, none⟩) [] "SOFI" "limit"
        none (some 1) none).open_orders = [] ∧
    (buy_stock (fun _ => ⟨none, none, none, none, none⟩) [] "SOFI" "limit"
        none (some 1) none).gatewayCalls = [] ∧
    (∃ msg, (sell_stock (fun _ => ⟨none, none, none, none, none⟩) [] "SOFI" "limit"
        none (some 1) none).ret = .error msg) ∧
    (sell_stock (fun _ => ⟨none, none, none, none, none⟩) [] "SOFI" "limit"
        none (some 1) none).open_orders = [] ∧
    (sell_stock (fun _ => ⟨none, none, none, none, none⟩) [] "SOFI" "limit"
        none (some 1) none).gatewayCalls = [] :=
  invalid_request_no_side_effect _ [] "SOFI" "limit" none (some 1) none
    (Or.inr (Or.inr (Or.inl ⟨rfl, Or.inl rfl⟩)))

end RobinHoodBot

namespace RobinHoodBot

/-- The condition under which a request reaches the gateway: a supported
shape whose required fields are present and non-negative (the complement,
within the four shapes, of `missingOrNegative`). -/
def validRequest (order_type : String)
    (price quantity dollar_amount : Option Rat) : Prop :=
  (order_type = "fractional_price" ∧ ∃ x, dollar_amount = some x ∧ 0 ≤ x) ∨
  (order_type = "fractional_quantity" ∧ ∃ x, quantity = some x ∧ 0 ≤ x) ∨
  (order_type = "limit" ∧
    ∃ x y, price = some x ∧ quantity = some y ∧ 0 ≤ x ∧ 0 ≤ y) ∨
  (order_type = "market" ∧ ∃ x, quantity = some x ∧ 0 ≤ x)

theorem validateAndDispatch_valid {order_type : String}
    {price quantity dollar_amount : Option Rat}
    (h : validRequest order_type price quantity dollar_amount)
    (symbol : String) (mk1 mk2 : String → Rat → GatewayCall)
    (mk3 : String → Int → Rat → GatewayCall) (mk4 : String → Int → GatewayCall)
    (um : String) :
    ∃ c, validateAndDispatch symbol order_type price quantity dollar_amount
      mk1 mk2 mk3 mk4 um = .ok c := by
  rcases h with ⟨rfl, x, rfl, hx⟩ | ⟨rfl, x, rfl, hx⟩ |
    ⟨rfl, x, y, rfl, rfl, hx, hy⟩ | ⟨rfl, x, rfl, hx⟩
  · exact ⟨mk1 symbol x, by
      simp [validateAndDispatch, checkFractionalByPrice, hx.not_lt]⟩
  · exact ⟨mk2 symbol x, by
      simp [validateAndDispatch, checkFractionalByQuantity, hx.not_lt]⟩
  · exact ⟨mk3 symbol (pyInt y) x, by
      simp [validateAndDispatch, checkLimit, hx.not_lt, hy.not_lt]⟩
  · exact ⟨mk4 symbol (pyInt x), by
      simp [validateAndDispatch, checkMarket, hx.not_lt]⟩

theorem buy_stock_ok_parts (gw : GatewayCall → OrderResp) (reg : OrderRegistry)
    {symbol order_type : String} {price quantity dollar_amount : Option Rat}
    {c : GatewayCall}
    (h : validateAndDispatch symbol order_type price quantity dollar_amount
      .buyFractionalByPrice .buyFractionalByQuantity .buyLimit .buyMarket
      "Unsupported buy order type" = .ok c) :
    (buy_stock gw reg symbol order_type price quantity dollar_amount).ret =
      .ok { gw c with symbol := some symbol } ∧
    (buy_stock gw reg symbol order_type price quantity dollar_amount).open_orders =
      (recordOrder reg { gw c with symbol := some symbol }).1 ∧
    (buy_stock gw reg symbol order_type price quantity dollar_amount).gatewayCalls =
      [c] ∧
    (buy_stock gw reg symbol order_type price quantity dollar_amount).logs =
      ("BUY ORDER SUBMITTED " ++ symbol ++ " " ++ order_type) ::
        (recordOrder reg { gw c with symbol := some symbol }).2 := by
  unfold buy_stock
  rw [h]
  rcases hro : recordOrder reg { gw c with symbol := some symbol } with ⟨r', fl⟩
  simp [hro]

theorem sell_stock_ok_parts (gw : GatewayCall → OrderResp) (reg : OrderRegistry)
    {symbol order_type : String} {price quantity dollar_amount : Option Rat}
    {c : GatewayCall}
    (h : validateAndDispatch symbol order_type price quantity dollar_amount
      .sellFractionalByPrice .sellFractionalByQuantity .sellLimit .sellMarket
      "Unsupported buy order type" = .ok c) :
    (sell_stock gw reg symbol order_type price quantity dollar_amount).ret =
      .ok { gw c with symbol := some symbol } ∧
    (sell_stock gw reg symbol order_type price quantity dollar_amount).open_orders =
      (recordOrder reg { gw c with symbol := some symbol }).1 ∧
    (sell_stock gw reg symbol order_type price quantity dollar_amount).gatewayCalls =
      [c] ∧
    (sell_stock gw reg symbol order_type price quantity dollar_amount).logs =
      (recordOrder reg { gw c with symbol := some symbol }).2 ++
        ["SELL ORDER SUBMITTED " ++ symbol ++ " " ++ order_type] := by
  unfold sell_stock
  rw [h]
  rcases hro : recordOrder reg { gw c with symbol := some symbol } with ⟨r', fl⟩
  simp [hro]

theorem recordOrder_id_none {reg : OrderRegistry} {resp : OrderResp}
    (h : resp.id = none) : recordOrder reg resp = (reg, ["FAILED ORDER"]) := by
  unfold recordOrder
  rw [h]

/-- C5: when every placement response of the gateway carries no order
identifier, a validated buy or sell submission returns normally (no
exception), reports the failure via the `FAILED ORDER` line, and leaves
the order registry exactly as it was. -/
theorem gateway_no_id_reported_registry_unchanged :
    ∀ (gw : GatewayCall → OrderResp) (reg : OrderRegistry)
      (symbol order_type : String) (price quantity dollar_amount : Option Rat),
      validRequest order_type price quantity dollar_amount →
      (∀ c, (gw c).id = none) →
      (∃ r, (buy_stock gw reg symbol order_type price quantity
          dollar_amount).ret = .ok r) ∧
      (buy_stock gw reg symbol order_type price quantity
          dollar_amount).open_orders = reg ∧
      "FAILED ORDER" ∈ (buy_stock gw reg symbol order_type price quantity
          dollar_amount).logs ∧
      (∃ r, (sell_stock gw reg symbol order_type price quantity
          dollar_amount).ret = .ok r) ∧
      (sell_stock gw reg symbol order_type price quantity
          dollar_amount).open_orders = reg ∧
      "FAILED ORDER" ∈ (sell_stock gw reg symbol order_type price quantity
          dollar_amount).logs := by
  intro gw reg symbol ot p q da hvalid hnoid
  obtain ⟨cB, hB⟩ := validateAndDispatch_valid hvalid symbol .buyFractionalByPrice
    .buyFractionalByQuantity .buyLimit .buyMarket "Unsupported buy order type"
  obtain ⟨cS, hS⟩ := validateAndDispatch_valid hvalid symbol .sellFractionalByPrice
    .sellFractionalByQuantity .sellLimit .sellMarket "Unsupported buy order type"
  obtain ⟨hBret, hBreg, -, hBlog⟩ := buy_stock_ok_parts gw reg hB
  obtain ⟨hSret, hSreg, -, hSlog⟩ := sell_stock_ok_parts gw reg hS
  have hroB : recordOrder reg { gw cB with symbol := some symbol } =
      (reg, ["FAILED ORDER"]) := recordOrder_id_none (hnoid cB)
  have hroS : recordOrder reg { gw cS with symbol := some symbol } =
      (reg, ["FAILED ORDER"]) := recordOrder_id_none (hnoid cS)
  rw [hroB] at hBreg hBlog
  rw [hroS] at hSreg hSlog
  refine ⟨⟨_, hBret⟩, hBreg, ?_, ⟨_, hSret⟩, hSreg, ?_⟩
  · rw [hBlog]; simp
  · rw [hSlog]; simp

/-- Witness for C5: a valid market buy and sell of one share against a
gateway stub whose responses carry no id. -/
theorem gateway_no_id_reported_registry_unchanged_witness :
    (∃ r, (buy_stock (fun _ => ⟨none, none, none, none, none⟩) regThree "SOFI"
        "market" none (some 1) none).ret = .ok r) ∧
    (buy_stock (fun _ => ⟨none, none, none, none, none⟩) regThree "SOFI"
        "market" none (some 1) none).open_orders = regThree ∧
    "FAILED ORDER" ∈ (buy_stock (fun _ => ⟨none, none, none, none, none⟩) regThree
        "SOFI" "market" none (some 1) none).logs ∧
    (∃ r, (sell_stock (fun _ => ⟨none, none, none, none, none⟩) regThree "SOFI"
        "market" none (some 1) none).ret = .ok r) ∧
    (sell_stock (fun _ => ⟨none, none, none, none, none⟩) regThree "SOFI"
        "market" none (some 1) none).open_orders = regThree ∧
    "FAILED ORDER" ∈ (sell_stock (fun _ => ⟨none, none, none, none, none⟩) regThree
        "SOFI" "market" none (some 1) none).logs :=
  gateway_no_id_reported_registry_unchanged _ regThree "SOFI" "market"
    none (some 1) none
    (Or.inr (Or.inr (Or.inr ⟨rfl, 1, rfl, by norm_num⟩)))
    (fun _ => rfl)

/-- C10: every submission that passes validation returns (normally, not by
exception) the gateway's raw response with its symbol field overwritten to
the requested symbol — also when the response has no order identifier, so
a gateway-rejected submission is indistinguishable by exception from a
successful one. -/
theorem valid_submit_returns_symbol_tagged_response :
    ∀ (gw : GatewayCall → OrderResp) (reg : OrderRegistry)
      (symbol order_type : String) (price quantity dollar_amount : Option Rat),
      validRequest order_type price quantity dollar_amount →
      (∃ c, (buy_stock gw reg symbol order_type price quantity
          dollar_amount).ret = .ok { gw c with symbol := some symbol } ∧
        (buy_stock gw reg symbol order_type price quantity
          dollar_amount).gatewayCalls = [c]) ∧
      (∀ r, (buy_stock gw reg symbol order_type price quantity
          dollar_amount).ret = .ok r → r.symbol = some symbol) ∧
      (∃ c, (sell_stock gw reg symbol order_type price quantity
          dollar_amount).ret = .ok { gw c with symbol := some symbol } ∧
        (sell_stock gw reg symbol order_type price quantity
          dollar_amount).gatewayCalls = [c]) ∧
      (∀ r, (sell_stock gw reg symbol order_type price quantity
          dollar_amount).ret = .ok r → r.symbol = some symbol) := by
  intro gw reg symbol ot p q da hvalid
  obtain ⟨cB, hB⟩ := validateAndDispatch_valid hvalid symbol .buyFractionalByPrice
    .buyFractionalByQuantity .buyLimit .buyMarket "Unsupported buy order type"
  obtain ⟨cS, hS⟩ := validateAndDispatch_valid hvalid symbol .sellFractionalByPrice
    .sellFractionalByQuantity .sellLimit .sellMarket "Unsupported buy order type"
  obtain ⟨hBret, -, hBcalls, -⟩ := buy_stock_ok_parts gw reg hB
  obtain ⟨hSret, -, hScalls, -⟩ := sell_stock_ok_parts gw reg hS
  refine ⟨⟨cB, hBret, hBcalls⟩, ?_, ⟨cS, hSret, hScalls⟩, ?_⟩
  · intro r hr
    rw [hBret] at hr
    cases hr
    rfl
  · intro r hr
    rw [hSret] at hr
    cases hr
    rfl

/-- Witness for C10: a valid limit buy/sell against a stub with no id in
the response still returns the response tagged with symbol "SOFI". -/
theorem valid_submit_returns_symbol_tagged_response_witness :
    (∃ c, (buy_stock (fun _ => ⟨none, none, none, none, none⟩) [] "SOFI" "limit"
        (some 1) (some 1) none).ret =
          .ok { (fun (_ : GatewayCall) =>
            (⟨none, none, none, none, none⟩ : OrderResp)) c with
              symbol := some "SOFI" } ∧
      (buy_stock (fun _ => ⟨none, none, none, none, none⟩) [] "SOFI" "limit"
        (some 1) (some 1) none).gatewayCalls = [c]) ∧
    (∀ r, (buy_stock (fun _ => ⟨none, none, none, none, none⟩) [] "SOFI" "limit"
        (some 1) (some 1) none).ret = .ok r → r.symbol = some "SOFI") ∧
    (∃ c, (sell_stock (fun _ => ⟨none, none, none, none, none⟩) [] "SOFI" "limit"
        (some 1) (some 1) none).ret =
          .ok { (fun (_ : GatewayCall) =>
            (⟨none, none, none, none, none⟩ : OrderResp)) c with
              symbol := some "SOFI" } ∧
      (sell_stock (fun _ => ⟨none, none, none, none, none⟩) [] "SOFI" "limit"
        (some 1) (some 1) none).gatewayCalls = [c]) ∧
    (∀ r, (sell_stock (fun _ => ⟨none, none, none, none, none⟩) [] "SOFI" "limit"
        (some 1) (some 1) none).ret = .ok r → r.symbol = some "SOFI") :=
  valid_submit_returns_symbol_tagged_response _ [] "SOFI" "limit"
    (some 1) (some 1) none
    (Or.inr (Or.inr (Or.inl ⟨rfl, 1, 1, rfl, rfl, by norm_num, by norm_num⟩)))

end RobinHoodBot

namespace RobinHoodBot

theorem recordOrder_keyInv {reg : OrderRegistry} (resp : OrderResp)
    (h : RegistryKeyInv reg) : RegistryKeyInv (recordOrder reg resp).1 := by
  unfold recordOrder
  cases hid : resp.id with
  | none => exact h
  | some oid => exact dictInsert_keyInv h hid

theorem buy_stock_keyInv {gw : GatewayCall → OrderResp} {reg : OrderRegistry}
    {symbol order_type : String} {price quantity dollar_amount : Option Rat}
    (h : RegistryKeyInv reg) :
    RegistryKeyInv
      (buy_stock gw reg symbol order_type price quantity dollar_amount).open_orders := by
  unfold buy_stock
  cases hvd : validateAndDispatch symbol order_type price quantity dollar_amount
      .buyFractionalByPrice .buyFractionalByQuantity .buyLimit .buyMarket
      "Unsupported buy order type" with
  | error e => exact h
  | ok c =>
    rcases hro : recordOrder reg { gw c with symbol := some symbol } with ⟨r', fl⟩
    have hinv := recordOrder_keyInv { gw c with symbol := some symbol } h
    rw [hro] at hinv
    simpa [hro] using hinv

theorem sell_stock_keyInv {gw : GatewayCall → OrderResp} {reg : OrderRegistry}
    {symbol order_type : String} {price quantity dollar_amount : Option Rat}
    (h : RegistryKeyInv reg) :
    RegistryKeyInv
      (sell_stock gw reg symbol order_type price quantity dollar_amount).open_orders := by
  unfold sell_stock
  cases hvd : validateAndDispatch symbol order_type price quantity dollar_amount
      .sellFractionalByPrice .sellFractionalByQuantity .sellLimit .sellMarket
      "Unsupported buy order type" with
  | error e => exact h
  | ok c =>
    rcases hro : recordOrder reg { gw c with symbol := some symbol } with ⟨r', fl⟩
    have hinv := recordOrder_keyInv { gw c with symbol := some symbol } h
    rw [hro] at hinv
    simpa [hro] using hinv

theorem loadOpenOrders_keyInv (resolve : String → String) :
    ∀ (orders : List OrderResp) (acc reg : OrderRegistry),
      RegistryKeyInv acc →
      loadOpenOrders resolve orders acc = .ok reg → RegistryKeyInv reg := by
  intro orders
  induction orders with
  | nil =>
    intro acc reg hacc h
    unfold loadOpenOrders at h
    cases h
    exact hacc
  | cons o rest ih =>
    intro acc reg hacc h
    obtain ⟨oid?, osym, ost, orej, oin⟩ := o
    unfold loadOpenOrders at h
    cases oin with
    | none => exact Except.noConfusion h
    | some instr =>
      cases oid? with
      | none => exact Except.noConfusion h
      | some oid => exact ih _ reg (dictInsert_keyInv hacc rfl) h

theorem update_open_orders_keyInv {gwInfo : String → OrderInfo}
    {reg : OrderRegistry} (h : RegistryKeyInv reg) :
    RegistryKeyInv (update_open_orders gwInfo reg).1 := by
  intro p hp
  exact h p ((mem_update_open_orders gwInfo reg p).mp hp).1

/-- C9: every operation that populates the order registry — the initial
load of open orders, buy submission, sell submission — and reconciliation
preserve the invariant that each registry entry is keyed by the `id` field
of its own record. -/
theorem registry_key_invariant_preserved :
    ∀ (gw : GatewayCall → OrderResp) (gwInfo : String → OrderInfo)
      (resolve : String → String) (orders : List OrderResp)
      (reg reg0 : OrderRegistry) (symbol order_type : String)
      (price quantity dollar_amount : Option Rat),
      (get_all_open_stock_orders resolve orders = .ok reg0 →
        RegistryKeyInv reg0) ∧
      (RegistryKeyInv reg → RegistryKeyInv
        (buy_stock gw reg symbol order_type price quantity dollar_amount).open_orders) ∧
      (RegistryKeyInv reg → RegistryKeyInv
        (sell_stock gw reg symbol order_type price quantity dollar_amount).open_orders) ∧
      (RegistryKeyInv reg →
        RegistryKeyInv (update_open_orders gwInfo reg).1) := by
  intro gw gwInfo resolve orders reg reg0 symbol ot p q da
  refine ⟨?_, buy_stock_keyInv, sell_stock_keyInv, update_open_orders_keyInv⟩
  intro h
  exact loadOpenOrders_keyInv resolve orders [] reg0 (by intro p hp; cases hp) h

/-- Witness for C9: concrete instances of each conjunct — loading one raw
order, a market buy against an id-assigning stub, a sell against a no-id
stub, and a reconciliation pass, all preserve key consistency. -/
theorem registry_key_invariant_preserved_witness :
    RegistryKeyInv
      [("ord-1", (⟨some "ord-1", some "AAPL", none, none, some "url-1"⟩ : OrderResp))] ∧
    RegistryKeyInv
      (buy_stock (fun _ => ⟨some "z9", none, none, none, none⟩) regThree "SOFI"
        "market" none (some 1) none).open_orders ∧
    RegistryKeyInv
      (sell_stock (fun _ => ⟨none, none, none, none, none⟩) regThree "SOFI"
        "market" none (some 1) none).open_orders ∧
    RegistryKeyInv (update_open_orders gwAllFilled regThree).1 := by
  have hinv3 : RegistryKeyInv regThree :=
    show ∀ p ∈ regThree, p.2.id = some p.1 by decide
  have h := registry_key_invariant_preserved
    (fun _ => ⟨some "z9", none, none, none, none⟩) gwAllFilled (fun _ => "AAPL")
    [⟨some "ord-1", none, none, none, some "url-1"⟩] regThree
    [("ord-1", ⟨some "ord-1", some "AAPL", none, none, some "url-1"⟩)]
    "SOFI" "market" none (some 1) none
  have h' := registry_key_invariant_preserved
    (fun _ => ⟨none, none, none, none, none⟩) gwAllFilled (fun _ => "AAPL")
    [⟨some "ord-1", none, none, none, some "url-1"⟩] regThree
    [("ord-1", ⟨some "ord-1", some "AAPL", none, none, some "url-1"⟩)]
    "SOFI" "market" none (some 1) none
  exact ⟨h.1 rfl, h.2.1 hinv3, h'.2.2.1 hinv3, h.2.2.2 hinv3⟩

end RobinHoodBot

namespace RobinHoodBot

theorem applyPosition_keys (resolve toEastern : String → String)
    (h : List (String × Holding)) (s : Position) :
    (applyPosition resolve toEastern h s).map Prod.fst = h.map Prod.fst := by
  unfold applyPosition
  split
  · rw [List.map_map]
    apply List.map_congr_left
    intro p hp
    simp only [Function.comp_apply]
    split
    · rfl
    · rfl
  · rfl

theorem get_portfolio_keys (resolve toEastern : String → String) :
    ∀ (stock_data : List Position) (holdings : List (String × Holding)),
      (get_portfolio resolve toEastern holdings stock_data).map Prod.fst =
        holdings.map Prod.fst := by
  intro stock_data
  induction stock_data with
  | nil => intro holdings; rfl
  | cons s rest ih =>
    intro holdings
    show (get_portfolio resolve toEastern
      (applyPosition resolve toEastern holdings s) rest).map Prod.fst = _
    rw [ih, applyPosition_keys]

theorem applyPosition_untouched {resolve toEastern : String → String}
    {h : List (String × Holding)} {s : Position} {sym : String} {hd : Holding}
    (hne : sym ≠ resolve s.instrument) :
    (sym, hd) ∈ applyPosition resolve toEastern h s ↔ (sym, hd) ∈ h := by
  unfold applyPosition
  split
  · constructor
    · intro hmem
      rcases List.mem_map.mp hmem with ⟨q, hq, hfq⟩
      by_cases hc : q.1 == resolve s.instrument
      · rw [if_pos hc] at hfq
        have h1 : q.1 = sym := ((Prod.mk.injEq _ _ _ _).mp hfq).1
        exact absurd (h1 ▸ beq_iff_eq.mp hc) hne
      · rw [if_neg hc] at hfq
        exact hfq ▸ hq
    · intro hmem
      refine List.mem_map.mpr ⟨(sym, hd), hmem, ?_⟩
      rw [if_neg (by simpa using hne)]
  · exact Iff.rfl

theorem applyPosition_isSome {resolve toEastern : String → String}
    {h : List (String × Holding)} {s : Position} {sym : String}
    (hall : ∀ hd : Holding, (sym, hd) ∈ h → hd.created_at.isSome = true) :
    ∀ hd : Holding, (sym, hd) ∈ applyPosition resolve toEastern h s →
      hd.created_at.isSome = true := by
  intro hd hmem
  unfold applyPosition at hmem
  split at hmem
  · rcases List.mem_map.mp hmem with ⟨q, hq, hfq⟩
    by_cases hc : q.1 == resolve s.instrument
    · rw [if_pos hc] at hfq
      rw [← (Prod.mk.injEq _ _ _ _).mp hfq |>.2]
      rfl
    · rw [if_neg hc] at hfq
      obtain ⟨h1, h2⟩ := (Prod.mk.injEq _ _ _ _).mp hfq
      exact hall hd (h1 ▸ h2 ▸ hq)
  · exact hall hd hmem

theorem applyPosition_hit {resolve toEastern : String → String}
    {h : List (String × Holding)} {s : Position} {sym : String}
    (heq : sym = resolve s.instrument) (hkey : sym ∈ h.map Prod.fst) :
    ∀ hd : Holding, (sym, hd) ∈ applyPosition resolve toEastern h s →
      hd.created_at.isSome = true := by
  intro hd hmem
  unfold applyPosition at hmem
  rw [if_pos] at hmem
  · rcases List.mem_map.mp hmem with ⟨q, hq, hfq⟩
    by_cases hc : q.1 == resolve s.instrument
    · rw [if_pos hc] at hfq
      rw [← (Prod.mk.injEq _ _ _ _).mp hfq |>.2]
      rfl
    · rw [if_neg hc] at hfq
      obtain ⟨h1, h2⟩ := (Prod.mk.injEq _ _ _ _).mp hfq
      exact absurd (h1 ▸ heq ▸ rfl : q.1 = resolve s.instrument)
        (by simpa using hc)
  · rcases List.mem_map.mp hkey with ⟨q, hq, hfq⟩
    exact List.any_eq_true.mpr ⟨q, hq, by simp [hfq, heq]⟩

theorem get_portfolio_untouched {resolve toEastern : String → String} :
    ∀ (stock_data : List Position) (holdings : List (String × Holding))
      (sym : String) (hd : Holding),
      sym ∉ positionSymbols resolve stock_data →
      ((sym, hd) ∈ get_portfolio resolve toEastern holdings stock_data ↔
        (sym, hd) ∈ holdings) := by
  intro stock_data
  induction stock_data with
  | nil => intro holdings sym hd _; exact Iff.rfl
  | cons s rest ih =>
    intro holdings sym hd hnot
    have hsplit : sym ≠ resolve s.instrument ∧ sym ∉ positionSymbols resolve rest := by
      constructor
      · intro he
        exact hnot (by rw [he]; exact List.mem_cons_self _ _)
      · intro hmem
        exact hnot (List.mem_cons_of_mem _ hmem)
    have hstep : (sym, hd) ∈ get_portfolio resolve toEastern
        (applyPosition resolve toEastern holdings s) rest ↔
        (sym, hd) ∈ applyPosition resolve toEastern holdings s :=
      ih (applyPosition resolve toEastern holdings s) sym hd hsplit.2
    exact hstep.trans (applyPosition_untouched hsplit.1)

theorem get_portfolio_isSome {resolve toEastern : String → String} :
    ∀ (stock_data : List Position) (holdings : List (String × Holding))
      (sym : String),
      (∀ hd : Holding, (sym, hd) ∈ holdings → hd.created_at.isSome = true) →
      ∀ hd : Holding, (sym, hd) ∈ get_portfolio resolve toEastern holdings stock_data →
        hd.created_at.isSome = true := by
  intro stock_data
  induction stock_data with
  | nil => intro holdings sym hall hd hmem; exact hall hd hmem
  | cons s rest ih =>
    intro holdings sym hall hd hmem
    exact ih (applyPosition resolve toEastern holdings s) sym
      (applyPosition_isSome hall) hd hmem

theorem get_portfolio_attaches {resolve toEastern : String → String} :
    ∀ (stock_data : List Position) (holdings : List (String × Holding))
      (sym : String),
      sym ∈ positionSymbols resolve stock_data →
      sym ∈ holdings.map Prod.fst →
      ∀ hd : Holding, (sym, hd) ∈ get_portfolio resolve toEastern holdings stock_data →
        hd.created_at.isSome = true := by
  intro stock_data
  induction stock_data with
  | nil => intro holdings sym hpos; cases hpos
  | cons s rest ih =>
    intro holdings sym hpos hkey hd hmem
    by_cases heq : sym = resolve s.instrument
    · exact get_portfolio_isSome rest (applyPosition resolve toEastern holdings s)
        sym (applyPosition_hit heq hkey) hd hmem
    · have hpos' : sym ∈ positionSymbols resolve rest := by
        rcases List.mem_cons.mp hpos with h | h
        · exact absurd h heq
        · exact h
      refine ih (applyPosition resolve toEastern holdings s) sym hpos' ?_ hd hmem
      rw [applyPosition_keys]
      exact hkey

end RobinHoodBot

namespace RobinHoodBot

/-- C8 counterexample: a symbol present only in the open-positions query
result (here "AAPL", with an empty holdings mapping) is NOT returned in
the refreshed mapping at all — `get_portfolio` returns the holdings dict,
so position-only symbols are dropped, not surfaced as-is. -/
theorem get_portfolio_drops_position_only_symbol :
    "AAPL" ∈ positionSymbols (fun _ => "AAPL")
      [⟨"instr-url", "2021-01-04T15:30:00Z"⟩] ∧
    get_portfolio (fun _ => "AAPL") (fun s => s) []
      [⟨"instr-url", "2021-01-04T15:30:00Z"⟩] = [] :=
  ⟨by decide, rfl⟩

/-- C8 amended: the refreshed mapping has exactly the holdings' symbols
(so a symbol present only in the positions result is omitted, without
error); a symbol absent from the positions result keeps its holdings
entry as-is; and, when no holding carries a timestamp initially, an entry
of the result carries the acquisition timestamp exactly when its symbol
also appears among the resolved open positions. -/
theorem get_portfolio_attaches_iff_in_both :
    ∀ (resolve toEastern : String → String)
      (holdings : List (String × Holding)) (stock_data : List Position),
      (get_portfolio resolve toEastern holdings stock_data).map Prod.fst =
        holdings.map Prod.fst ∧
      (∀ (sym : String) (hd : Holding), sym ∉ positionSymbols resolve stock_data →
        ((sym, hd) ∈ get_portfolio resolve toEastern holdings stock_data ↔
          (sym, hd) ∈ holdings)) ∧
      ((∀ p ∈ holdings, p.2.created_at = none) →
        ∀ (sym : String) (hd : Holding),
          (sym, hd) ∈ get_portfolio resolve toEastern holdings stock_data →
          (hd.created_at.isSome = true ↔
            sym ∈ positionSymbols resolve stock_data)) := by
  intro resolve toEastern holdings stock_data
  refine ⟨get_portfolio_keys resolve toEastern stock_data holdings,
    fun sym hd hnot => get_portfolio_untouched stock_data holdings sym hd hnot, ?_⟩
  intro hnone sym hd hmem
  constructor
  · intro hsome
    by_contra hnot
    have hin : (sym, hd) ∈ holdings :=
      (get_portfolio_untouched stock_data holdings sym hd hnot).mp hmem
    have hcr := hnone (sym, hd) hin
    rw [hcr] at hsome
    simp at hsome
  · intro hpos
    have hkey : sym ∈ holdings.map Prod.fst := by
      have hk : sym ∈ (get_portfolio resolve toEastern holdings stock_data).map
          Prod.fst := List.mem_map.mpr ⟨(sym, hd), hmem, rfl⟩
      rwa [get_portfolio_keys] at hk
    exact get_portfolio_attaches stock_data holdings sym hpos hkey hd hmem

/-- Witness for C8 (amended): two holdings "AAPL" and "MSFT", one open
position resolving to "AAPL": keys are preserved, the "MSFT" entry is
returned as-is, and the "AAPL" entry of the result carries a timestamp
exactly because "AAPL" is among the position symbols. -/
theorem get_portfolio_attaches_iff_in_both_witness :
    (get_portfolio (fun _ => "AAPL") (fun s => s)
        [("AAPL", ⟨[], none⟩), ("MSFT", ⟨[], none⟩)] [⟨"u1", "t1"⟩]).map Prod.fst =
      [("AAPL", (⟨[], none⟩ : Holding)), ("MSFT", ⟨[], none⟩)].map Prod.fst ∧
    (("MSFT", (⟨[], none⟩ : Holding)) ∈ get_portfolio (fun _ => "AAPL") (fun s => s)
        [("AAPL", ⟨[], none⟩), ("MSFT", ⟨[], none⟩)] [⟨"u1", "t1"⟩] ↔
      ("MSFT", (⟨[], none⟩ : Holding)) ∈
        [("AAPL", (⟨[], none⟩ : Holding)), ("MSFT", ⟨[], none⟩)]) ∧
    ((Holding.created_at ⟨[], some "t1"⟩).isSome = true ↔
      "AAPL" ∈ positionSymbols (fun _ => "AAPL") [⟨"u1", "t1"⟩]) := by
  refine ⟨(get_portfolio_attaches_iff_in_both (fun _ => "AAPL") (fun s => s)
      [("AAPL", ⟨[], none⟩), ("MSFT", ⟨[], none⟩)] [⟨"u1", "t1"⟩]).1,
    (get_portfolio_attaches_iff_in_both (fun _ => "AAPL") (fun s => s)
      [("AAPL", ⟨[], none⟩), ("MSFT", ⟨[], none⟩)] [⟨"u1", "t1"⟩]).2.1
      "MSFT" ⟨[], none⟩ (by decide),
    (get_portfolio_attaches_iff_in_both (fun _ => "AAPL") (fun s => s)
      [("AAPL", ⟨[], none⟩), ("MSFT", ⟨[], none⟩)] [⟨"u1", "t1"⟩]).2.2
      (by decide) "AAPL" ⟨[], some "t1"⟩ (by decide)⟩

end RobinHoodBot
